import Mathlib

/-!
Verification of the check-orchestration core of the `review_bot` repository
(`app` package).  The Go sources are shallowly embedded: the pure
log-parsing logic of `checkBuildifier` and `checkBazelBuild` (together with
the Go library functions they call: `strings.TrimSpace`, `strings.Split`,
`bufio.ScanLines`, `filepath.Rel`, `strconv.Atoi`, and the two compiled
regular expressions `lineCommentRegex` and `urlRegex`) becomes executable
Lean functions over `List Char` / `String`; subprocess execution is
abstracted by the triple `(stdout, stderr, err)` a process would produce,
threaded through the model of `runCmd`; the effectful webhook flows
`InitCheckRun` and `TakeRequestedAction` are embedded as trace-producing
functions over an environment of external-call outcomes.
-/

namespace ReviewBot

/-! ### Character and string utilities (models of Go stdlib behavior) -/

/-- Model of `unicode.IsSpace` restricted to the code points
`strings.TrimSpace` can meet in tool output (ASCII space classes plus
U+0085 and U+00A0, exactly the Latin-1 space set Go uses). -/
def isSpaceChar (c : Char) : Bool :=
  c = ' ' || c = '\t' || c = '\n' || c = '\x0d' ||
    c.toNat = 11 || c.toNat = 12 || c.toNat = 133 || c.toNat = 160

/-- Model of `strings.TrimSpace`: drop leading and trailing white space. -/
def trimSpace (l : List Char) : List Char :=
  ((l.dropWhile isSpaceChar).reverse.dropWhile isSpaceChar).reverse

/-- Split a character list at every occurrence of `sep`; always returns at
least one (possibly empty) piece, like Go's `strings.Split` on a one-byte
separator. -/
def splitOnChar (sep : Char) : List Char → List (List Char)
  | [] => [[]]
  | c :: cs =>
    match splitOnChar sep cs with
    | [] => [[]]
    | l :: ls => if c = sep then [] :: l :: ls else (c :: l) :: ls

/-- Helper of the `bufio.ScanLines` model: drop one trailing `'\r'`. -/
def dropCR (l : List Char) : List Char :=
  match l.reverse with
  | '\x0d' :: rest => rest.reverse
  | _ => l

/-- Helper of the `bufio.ScanLines` model: a final empty piece (input ended
with a newline, or was empty) is not emitted as a line. -/
def chopFinalEmpty (ls : List (List Char)) : List (List Char) :=
  match ls.reverse with
  | [] :: rest => rest.reverse
  | _ => ls

/-- Model of scanning a buffer with `bufio.Scanner` using `ScanLines`:
split at `'\n'`, never emit a final empty token, strip one trailing
`'\r'` per line. -/
def scanLines (s : String) : List String :=
  ((chopFinalEmpty (splitOnChar '\n' s.data)).map dropCR).map String.mk

/-- The first piece of `strings.Split(line, "#")` (`parts[0]` in
`checkBuildifier`): everything before the first `'#'`. -/
def beforeHash (l : List Char) : List Char :=
  match splitOnChar '#' l with
  | [] => []
  | p :: _ => p

/-! ### Model of `path/filepath` used by `checkBuildifier` -/

/-- `filepath.IsAbs` on slash-separated paths: the path starts with
`'/'`. -/
def isAbs (p : List Char) : Bool :=
  match p with
  | [] => false
  | c :: _ => c == '/'

/-- The raw components of a path: split at `'/'`, dropping empty components
and `"."` components (first phase of `filepath.Clean`). -/
def pathComps (p : List Char) : List (List Char) :=
  (splitOnChar '/' p).filter (fun c => c ≠ [] && c ≠ ['.'])

/-- Second phase of `filepath.Clean` on the component list: resolve `".."`
components (popping the previous component; at the root of an absolute
path a `".."` is dropped, in a relative path leading `".."`s pile up; the
accumulator is kept reversed). -/
def cleanComps (ab : Bool) : List (List Char) → List (List Char) → List (List Char)
  | acc, [] => acc.reverse
  | [], c :: cs =>
    if c = ['.', '.'] then
      if ab then cleanComps ab [] cs else cleanComps ab [c] cs
    else cleanComps ab [c] cs
  | a :: rest, c :: cs =>
    if c = ['.', '.'] then
      if a = ['.', '.'] then cleanComps ab (c :: a :: rest) cs else cleanComps ab rest cs
    else cleanComps ab (c :: a :: rest) cs

/-- The cleaned component list of a path. -/
def cleaned (p : List Char) : List (List Char) :=
  cleanComps (isAbs p) [] (pathComps p)

/-- Strip the common leading components of two component lists, returning
both remainders. -/
def stripCommon : List (List Char) → List (List Char) → List (List Char) × List (List Char)
  | b :: bs, t :: ts => if b = t then stripCommon bs ts else (b :: bs, t :: ts)
  | bs, ts => (bs, ts)

/-- Join components with `'/'`. -/
def joinComps : List (List Char) → List Char
  | [] => []
  | [c] => c
  | c :: c2 :: cs => c ++ '/' :: joinComps (c2 :: cs)

/-- Model of `filepath.Rel(base, targ)`: `none` is Go's error case (one
path absolute and the other relative, or the remaining base components
start with `".."` so the working directory would be needed); otherwise the
relative path from `base` to `targ` (`"."` when they clean to the same
path). -/
def relPath (base targ : List Char) : Option (List Char) :=
  if isAbs base != isAbs targ then none
  else
    let pr := stripCommon (cleaned base) (cleaned targ)
    match pr.1 with
    | [] =>
      match pr.2 with
      | [] => some ['.']
      | ts => some (joinComps ts)
    | c :: _ =>
      if c = ['.', '.'] then none
      else some (joinComps (pr.1.map (fun _ => ['.', '.']) ++ pr.2))

/-! ### Models of the two compiled regular expressions -/

/-- The literal part of `urlRegex`. -/
def urlLit : List Char := "Streaming build results to: ".data

/-- Model of `urlRegex.FindStringSubmatch`'s `url` group: the suffix after
the leftmost occurrence of the literal (the trailing `(?P<url>.*)` is
greedy to the end of the line). `none` when the pattern does not occur. -/
def findAfterLit : List Char → Option (List Char)
  | [] => none
  | c :: cs =>
    if List.isPrefixOf urlLit (c :: cs) then some ((c :: cs).drop urlLit.length)
    else findAfterLit cs

/-- `\d` of Go regexp: an ASCII digit. -/
def isDigitChar (c : Char) : Bool :=
  48 ≤ c.toNat && c.toNat ≤ 57

/-- Match `:(\d+):(\d+):(.*)` against `rest`, the part of the line after
the `file` group; the digit runs are maximal (greedy `\d+`), the final
`.*` takes the remainder of the line. -/
def matchTail (rest : List Char) : Option (List Char × List Char × List Char) :=
  match rest with
  | ':' :: r1 =>
    let d1 := r1.takeWhile isDigitChar
    if d1 = [] then none
    else
      match r1.dropWhile isDigitChar with
      | ':' :: r3 =>
        let d2 := r3.takeWhile isDigitChar
        if d2 = [] then none
        else
          match r3.dropWhile isDigitChar with
          | ':' :: comment => some (d1, d2, comment)
          | _ => none
      | _ => none
  | _ => none

/-- All ways to split a list into prefix and suffix, longest prefix
first (the order a greedy leading `.*` tries them). -/
def prefixSplits : List Char → List (List Char × List Char)
  | [] => [([], [])]
  | c :: cs => (prefixSplits cs).map (fun p => (c :: p.1, p.2)) ++ [([], c :: cs)]

/-- First `some` produced by `f` along a list. -/
def firstSome {α β : Type} (f : α → Option β) : List α → Option β
  | [] => none
  | a :: as =>
    match f a with
    | some b => some b
    | none => firstSome f as

/-- Model of `lineCommentRegex.FindStringSubmatch` on one (newline-free)
line: `^(?P<file>.*):(?P<line>\d+):(?P<col>\d+):(?P<comment>.*)` with Go's
leftmost-first (backtracking-equivalent) semantics — the greedy `file`
group takes the longest prefix that lets the rest match.  Returns
`(file, line, col, comment)`. -/
def lineCommentMatch (l : List Char) : Option (List Char × List Char × List Char × List Char) :=
  firstSome
    (fun p =>
      match matchTail p.2 with
      | some x => some (p.1, x.1, x.2.1, x.2.2)
      | none => none)
    (prefixSplits l)

/-! ### Model of `strconv.Atoi` on the digit strings the regexp captures -/

/-- Go's 64-bit `int` maximum, the clamp value of `strconv.ParseInt`. -/
def maxGoInt : Nat := 9223372036854775807

/-- The numeric value of a digit run. -/
def digitsToNat (l : List Char) : Nat :=
  l.foldl (fun n c => n * 10 + (c.toNat - 48)) 0

/-- Model of `strconv.Atoi` on a (nonempty) digit string: the parsed value
and whether a range error occurred; on overflow Go returns the maximum
`int` together with `ErrRange`. -/
def atoi (l : List Char) : Int × Bool :=
  let n := digitsToNat l
  if n > maxGoInt then ((maxGoInt : Int), true) else ((n : Int), false)

/-! ### The data model (`Result`, `Annotation`, `Action` of the Go source;
the annotation record is named `Annot` here) -/

/-- Go struct `Annotation` (named `Annot` in this embedding). -/
structure Annot where
  Message : String
  Line : Int
  Path : String
  Severity : String
deriving DecidableEq

/-- Go struct `Action`. -/
structure Action where
  Label : String
  Description : String
  Identifier : String
deriving DecidableEq

/-- Go struct `Result`. -/
structure Result where
  Title : String
  Summary : String
  Conclusion : String
  Annotations : List Annot
  URL : String
  Action : Option Action
deriving DecidableEq

/-- Constant `inProgress` of the Go source. -/
def inProgress : String := "in_progress"

/-- Constant `buildifierFix` of the Go source: the fix-remediation
identifier. -/
def buildifierFix : String := "buildifier-fix"

/-! ### `runCmd`

`runCmd` is modelled as a function of the `(stdout, stderr, err)` triple
the subprocess would produce: Go's version copies the streams into
buffers, logs, and — when stderr is nonempty — suppresses the process's
own error. -/

/-- Model of `runCmd`: returns `(output, stderr, err)`; a nonempty stderr
replaces the process error with `nil` (the two `log.Printf` calls are
side effects outside the model). -/
def runCmd (out errStream : String) (e : Option String) : String × String × Option String :=
  if errStream.length > 0 then (out, errStream, none)
  else (out, errStream, e)

/-! ### `checkBuildifier` -/

/-- Extract a relative path result, with Go's `""`-on-error convention of
`filepath.Rel` (the error itself is only logged by `checkBuildifier`). -/
def relOrEmpty (o : Option (List Char)) : List Char :=
  match o with
  | some r => r
  | none => []

/-- Model of `strconv.Quote` / `fmt.Sprintf("%q", ·)` on one character
(printable ASCII passes through; the escapes that can occur in paths). -/
def quoteChar (c : Char) : List Char :=
  if c = '\\' then ['\\', '\\']
  else if c = '"' then ['\\', '"']
  else if c = '\n' then ['\\', 'n']
  else if c = '\t' then ['\\', 't']
  else if c = '\x0d' then ['\\', 'r']
  else [c]

/-- Model of `fmt.Sprintf("%q", s)`: the string quoted Go-style. -/
def quoteGo (l : List Char) : List Char :=
  '"' :: (l.map quoteChar).flatten ++ ['"']

/-- The annotation `checkBuildifier` builds from one scanned stderr line:
the part before `'#'` is trimmed and made relative to `dir`
(`filepath.Rel` failure is logged and leaves `rel` as `""`), the message
is `fmt.Sprintf("file %q needs reformat", rel)`, the line is fixed at 1. -/
def buildifierAnnot (dir : String) (line : List Char) : Annot :=
  let rel := relOrEmpty (relPath dir.data (trimSpace (beforeHash line)))
  { Message := String.mk ("file ".data ++ quoteGo rel ++ " needs reformat".data)
    Line := 1
    Path := String.mk rel
    Severity := "failure" }

/-- The scan loop of `checkBuildifier` over the stderr lines.  The Go
guard `len(parts) > 0` is kept although `strings.Split` never returns an
empty slice. -/
def buildifierScan (dir : String) (lines : List String) : List Annot :=
  lines.foldl
    (fun anns l =>
      if (splitOnChar '#' l.data).length > 0 then anns ++ [buildifierAnnot dir l.data]
      else anns)
    []

/-- The `Result` `checkBuildifier` assembles after the scan (title fixed;
zero annotations give a success summary, otherwise a failure with the
`buildifier-fix` follow-up action). -/
def buildifierResult (dir stdErr : String) : Result :=
  let anns := buildifierScan dir (scanLines stdErr)
  if anns.length > 0 then
    { Title := "Buildifier Lint Result"
      Summary := toString anns.length ++ " BUILD files need reformat"
      Conclusion := "failure"
      Annotations := anns
      URL := ""
      Action := some { Label := "Fix this"
                       Description := "Automatically fix buildifier errors."
                       Identifier := buildifierFix } }
  else
    { Title := "Buildifier Lint Result"
      Summary := "No issues found."
      Conclusion := "success"
      Annotations := []
      URL := ""
      Action := none }

/-- Model of `checkBuildifier`: the buildifier process outcome
`(toolOut, toolStdErr, toolErr)` is passed through `runCmd`; with an empty
stderr and a non-nil error the error is returned with no `Result`; with an
empty stderr and no error the Go code sets the success fields and falls
through to the (empty) scan, which rebuilds the same success `Result`. -/
def checkBuildifier (dir toolOut toolStdErr : String) (toolErr : Option String) :
    Option Result × Option String :=
  let r := runCmd toolOut toolStdErr toolErr
  let stdErr := r.2.1
  if stdErr = "" then
    match r.2.2 with
    | some e => (none, some e)
    | none => (some (buildifierResult dir stdErr), none)
  else (some (buildifierResult dir stdErr), none)

/-! ### `checkBazelBuild` -/

/-- The noise filter of `checkBazelBuild`: lines with these prefixes never
become annotations. -/
def isNoise (l : List Char) : Bool :=
  List.isPrefixOf "ERROR: ".data l || List.isPrefixOf "INFO: ".data l ||
    List.isPrefixOf "FAILED: ".data l

/-- The annotation `checkBazelBuild` builds from a regexp match: `comment`
becomes the message as-is, `file` the path as-is, and the `line` digits go
through `strconv.Atoi` (a range error is logged and the clamped value is
used anyway). -/
def mkBazelAnn (file d1 comment : List Char) : Annot :=
  { Message := String.mk comment
    Line := (atoi d1).1
    Path := String.mk file
    Severity := "failure" }

/-- The loop state of `checkBazelBuild`: the captured URL, the dedup set
`m` (as the list of its keys) and the annotation list. -/
structure BazelState where
  url : List Char
  seen : List (List Char)
  anns : List Annot
deriving DecidableEq

/-- The annotation/dedup part of one `checkBazelBuild` loop iteration
(independent of the URL): skip noise-prefixed lines, match the diagnostic
regexp, skip lines already in the dedup set, otherwise append one
annotation and record the trimmed line. -/
def bazelStepAS (s : List Annot × List (List Char)) (raw : List Char) :
    List Annot × List (List Char) :=
  let line := trimSpace raw
  if isNoise line then s
  else
    match lineCommentMatch line with
    | none => s
    | some (file, d1, _col, comment) =>
      if s.2.contains line then s
      else (s.1 ++ [mkBazelAnn file d1 comment], line :: s.2)

/-- One full `checkBazelBuild` loop iteration: trim the line, capture the
streaming URL if none was captured yet (this happens before the noise
check), then the annotation/dedup part. -/
def bazelStep (s : BazelState) (raw : List Char) : BazelState :=
  let line := trimSpace raw
  let url' :=
    if s.url = [] then
      match findAfterLit line with
      | some u => u
      | none => s.url
    else s.url
  let as := bazelStepAS (s.anns, s.seen) raw
  { url := url', seen := as.2, anns := as.1 }

/-- The scan loop of `checkBazelBuild` over the stdout lines. -/
def bazelParse (lines : List String) : BazelState :=
  lines.foldl (fun s l => bazelStep s l.data) { url := [], seen := [], anns := [] }

/-- The `Result` `checkBazelBuild` assembles after the loop. -/
def bazelResult (lines : List String) : Result :=
  let st := bazelParse lines
  if st.anns.length = 0 then
    { Title := "Build result"
      Summary := "No issues found."
      Conclusion := "success"
      Annotations := []
      URL := String.mk st.url
      Action := none }
  else
    { Title := "Build result"
      Summary := "Build doesn't complete successfully"
      Conclusion := "failure"
      Annotations := st.anns
      URL := String.mk st.url
      Action := none }

/-- Model of `checkBazelBuild`: `os.Getwd` and the two `os.Chdir` calls
are environment effects whose outcomes (`none` = success) are passed in;
the `bb build` process outcome goes through `runCmd`, and an empty stdout
returns the (possibly suppressed) process error with no `Result`. -/
def checkBazelBuild (dir : String) (getwdErr chdirErr : Option String)
    (toolOut toolStdErr : String) (toolErr : Option String)
    (chdirBackErr : Option String) : Option Result × Option String :=
  match getwdErr with
  | some _ => (none, some "failed to get current directory")
  | none =>
    match chdirErr with
    | some e => (none, some ("failed to change directory to " ++ dir ++ ": " ++ e))
    | none =>
      let r := runCmd toolOut toolStdErr toolErr
      if r.1 = "" then (none, r.2.2)
      else
        let res := bazelResult (scanLines r.1)
        match chdirBackErr with
        | some e => (none, some ("failed to change directory to " ++ dir ++ ": " ++ e))
        | none => (some res, none)

/-! ### The webhook flows `InitCheckRun` and `TakeRequestedAction`

These flows are sequences of external calls (platform API, git, the check
tools, the filesystem).  They are embedded as trace-producing functions:
the environment fixes each external call's outcome, and the model returns
the list of performed effects together with how the flow exits.  Directory
removal failures are only logged by the Go code and change neither the
trace shape nor the exit, so they carry no environment field. -/

/-- One observable external effect of a webhook flow. -/
inductive Effect
  | updateRun (status : String)
  | cloneRepo (dir : String)
  | removeAll (dir : String)
  | runTool (tool : String)
  | chdir (dir : String)
deriving DecidableEq

/-- How a flow ends: normal return, an error return, or a runtime panic
(`InitCheckRun` dereferences a nil `Result` when a checker returns
`(nil, nil)`; deferred functions still run during the unwind). -/
inductive FlowExit
  | ok
  | failed (msg : String)
  | panicked
deriving DecidableEq

/-- The check registry `GetCheckFn`: the two registered names resolve,
anything else is an error. -/
inductive CheckKind
  | buildifierKind
  | bazelKind
deriving DecidableEq

/-- Model of `GetCheckFn` (`none` is the "checkFn not found" error). -/
def GetCheckFn (checkName : String) : Option CheckKind :=
  match checkName with
  | "buildifier" => some CheckKind.buildifierKind
  | "bazel" => some CheckKind.bazelKind
  | _ => none

/-- Outcomes of the external calls `InitCheckRun` makes, in order. -/
structure InitEnv where
  update1Err : Option String
  cloneErr : Option String
  checkName : String
  checkRes : Option Result
  checkErr : Option String
  update2Err : Option String
deriving DecidableEq

/-- Model of `InitCheckRun`: update to `in_progress`, clone (after a
successful clone a deferred `os.RemoveAll(dir)` is armed and runs on every
exit, panics included), resolve the checker, run it, post the completed
`Result`, then the explicit `os.RemoveAll(dir)` — so the success path
removes the directory twice.  A clone failure exits before the deferred
cleanup is armed. -/
def InitCheckRunModel (dir : String) (env : InitEnv) : List Effect × FlowExit :=
  match env.update1Err with
  | some e => ([Effect.updateRun inProgress], FlowExit.failed e)
  | none =>
    match env.cloneErr with
    | some e =>
        ([Effect.updateRun inProgress, Effect.cloneRepo dir],
         FlowExit.failed ("failed to clone repo: " ++ e))
    | none =>
      match GetCheckFn env.checkName with
      | none =>
          ([Effect.updateRun inProgress, Effect.cloneRepo dir, Effect.removeAll dir],
           FlowExit.failed ("checkFn not found for " ++ env.checkName))
      | some _ =>
        match env.checkErr with
        | some e =>
            ([Effect.updateRun inProgress, Effect.cloneRepo dir,
              Effect.runTool env.checkName, Effect.removeAll dir],
             FlowExit.failed ("failed to run " ++ env.checkName ++ ": " ++ e))
        | none =>
          match env.checkRes with
          | none =>
              ([Effect.updateRun inProgress, Effect.cloneRepo dir,
                Effect.runTool env.checkName, Effect.removeAll dir],
               FlowExit.panicked)
          | some _ =>
            match env.update2Err with
            | some e =>
                ([Effect.updateRun inProgress, Effect.cloneRepo dir,
                  Effect.runTool env.checkName, Effect.updateRun "completed",
                  Effect.removeAll dir],
                 FlowExit.failed e)
            | none =>
                ([Effect.updateRun inProgress, Effect.cloneRepo dir,
                  Effect.runTool env.checkName, Effect.updateRun "completed",
                  Effect.removeAll dir, Effect.removeAll dir],
                 FlowExit.ok)

/-- Outcomes of the external calls `TakeRequestedAction` makes, in order;
the git and buildifier subprocesses are given as `(stdout, stderr, err)`
triples that go through `runCmd` (so their errors are suppressed by
nonempty stderr, as in the source). -/
structure ActionEnv where
  identifier : String
  cloneErr : Option String
  tokenErr : Option String
  getwdErr : Option String
  chdirErr : Option String
  checkoutOut : String
  checkoutErrStream : String
  checkoutErr : Option String
  fixOut : String
  fixErrStream : String
  fixErr : Option String
  commitOut : String
  commitErrStream : String
  commitErr : Option String
  pushOut : String
  pushErrStream : String
  pushErr : Option String
  chdirBackErr : Option String
deriving DecidableEq

/-- Model of `TakeRequestedAction`: only a `buildifier-fix` identifier
acts; clone by branch, get a token, chdir into the working copy, check the
branch out, run `buildifier --mode=fix`, commit and push, chdir back.  The
body of the `defer` after the clone is commented out in the source, so no
cleanup effect is ever emitted. -/
def TakeRequestedActionModel (dir : String) (env : ActionEnv) : List Effect × FlowExit :=
  if env.identifier = buildifierFix then
    match env.cloneErr with
    | some e => ([Effect.cloneRepo dir], FlowExit.failed ("failed to clone repo: " ++ e))
    | none =>
      match env.tokenErr with
      | some e => ([Effect.cloneRepo dir], FlowExit.failed ("failed to get token: " ++ e))
      | none =>
        match env.getwdErr with
        | some _ => ([Effect.cloneRepo dir], FlowExit.failed "failed to get current directory")
        | none =>
          match env.chdirErr with
          | some e =>
              ([Effect.cloneRepo dir, Effect.chdir dir],
               FlowExit.failed ("failed to change directory to " ++ dir ++ ": " ++ e))
          | none =>
            match (runCmd env.checkoutOut env.checkoutErrStream env.checkoutErr).2.2 with
            | some e =>
                ([Effect.cloneRepo dir, Effect.chdir dir, Effect.runTool "git checkout"],
                 FlowExit.failed ("failed to checkout branch: " ++ e))
            | none =>
              match (runCmd env.fixOut env.fixErrStream env.fixErr).2.2 with
              | some e =>
                  ([Effect.cloneRepo dir, Effect.chdir dir, Effect.runTool "git checkout",
                    Effect.runTool "buildifier fix"],
                   FlowExit.failed e)
              | none =>
                match (runCmd env.commitOut env.commitErrStream env.commitErr).2.2 with
                | some e =>
                    ([Effect.cloneRepo dir, Effect.chdir dir, Effect.runTool "git checkout",
                      Effect.runTool "buildifier fix", Effect.runTool "git commit"],
                     FlowExit.failed ("failed to create commit: " ++ e))
                | none =>
                  match (runCmd env.pushOut env.pushErrStream env.pushErr).2.2 with
                  | some e =>
                      ([Effect.cloneRepo dir, Effect.chdir dir, Effect.runTool "git checkout",
                        Effect.runTool "buildifier fix", Effect.runTool "git commit",
                        Effect.runTool "git push"],
                       FlowExit.failed ("failed to push: " ++ e))
                  | none =>
                    match env.chdirBackErr with
                    | some e =>
                        ([Effect.cloneRepo dir, Effect.chdir dir, Effect.runTool "git checkout",
                          Effect.runTool "buildifier fix", Effect.runTool "git commit",
                          Effect.runTool "git push", Effect.chdir "curDir"],
                         FlowExit.failed ("failed to change directory back " ++ e))
                    | none =>
                        ([Effect.cloneRepo dir, Effect.chdir dir, Effect.runTool "git checkout",
                          Effect.runTool "buildifier fix", Effect.runTool "git commit",
                          Effect.runTool "git push", Effect.chdir "curDir"],
                         FlowExit.ok)
  else ([], FlowExit.ok)

/-! ### Derived notions used to state the claims -/

/-- Projection helpers over a `Result`. -/
def annMessages (res : Result) : List String := res.Annotations.map Annot.Message

/-- The paths of a result's annotations. -/
def annPaths (res : Result) : List String := res.Annotations.map Annot.Path

/-- The line numbers of a result's annotations. -/
def annLines (res : Result) : List Int := res.Annotations.map Annot.Line

/-- Unwrap an optional `Result` (zero-value default for the `none` case,
used only to state concrete counterexamples). -/
def resultOrDefault (r : Option Result) : Result :=
  match r with
  | some res => res
  | none =>
      { Title := "", Summary := "", Conclusion := "", Annotations := [], URL := ""
        Action := none }

/-- The conclusion the spec prescribes for a given annotation count. -/
def conclusionFor (n : Nat) : String := if n = 0 then "success" else "failure"

/-- Count the distinct members of a list not yet in `seen`, front to back
(the number of annotations a dedup-by-line scan emits). -/
def countDistinctFrom {α : Type} [BEq α] (seen : List α) : List α → Nat
  | [] => 0
  | l :: ls =>
    if seen.contains l then countDistinctFrom seen ls
    else countDistinctFrom (l :: seen) ls + 1

/-- The trimmed lines of a build log that survive the noise filter and
match the diagnostic regexp — the "matching diagnostic lines" of the
spec. -/
def matchedTrimmed (lines : List String) : List (List Char) :=
  (lines.map (fun l => trimSpace l.data)).filter
    (fun t => !isNoise t && (lineCommentMatch t).isSome)

/-- Whether one raw line is a matching diagnostic line. -/
def matchedOf (raw : List Char) : Bool :=
  !isNoise (trimSpace raw) && (lineCommentMatch (trimSpace raw)).isSome

/-- The path `checkBuildifier` feeds to `filepath.Rel` for one stderr
line. -/
def targetOf (l : String) : String := String.mk (trimSpace (beforeHash l.data))

/-- Whether a string is an absolute filesystem path. -/
def isAbsStr (s : String) : Bool := isAbs s.data

/-- `p` lies under the provisioning root `root`: both are absolute and the
cleaned components of `root` are a prefix of those of `p`. -/
def underRoot (root p : String) : Bool :=
  isAbs root.data && isAbs p.data && List.isPrefixOf (cleaned root.data) (cleaned p.data)

/-- A buildifier annotation is well formed: line 1, `failure` severity,
and the quoted-path message template. -/
def wellFormedAnn (a : Annot) : Bool :=
  a.Line == 1 && a.Severity == "failure" &&
    a.Message == String.mk ("file ".data ++ quoteGo a.Path.data ++ " needs reformat".data)

/-- Whether an optional action carries the `buildifier-fix` identifier. -/
def fixAction (o : Option Action) : Bool :=
  match o with
  | some act => act.Identifier == buildifierFix
  | none => false

/-- An annotation's line number is the fixed value 1. -/
def lineIsOne (a : Annot) : Bool := a.Line == 1

/-- An annotation's line number is nonnegative. -/
def lineNonneg (a : Annot) : Bool := decide (0 ≤ a.Line)

/-- The `checkBazelBuild` loop started from an arbitrary state. -/
def bazelFold (s : BazelState) (lines : List String) : BazelState :=
  lines.foldl (fun s l => bazelStep s l.data) s

/-- The annotation/dedup projection of the `checkBazelBuild` loop started
from an arbitrary state. -/
def bazelFoldAS (p : List Annot × List (List Char)) (lines : List String) :
    List Annot × List (List Char) :=
  lines.foldl (fun p l => bazelStepAS p l.data) p

/-- The build-log stdout of the spec's worked example (claim C4). -/
def c4stdout : String :=
  "Streaming build results to: https://x/y\nERROR: build failed\npkg/BUILD:12:3: undeclared dependency\npkg/BUILD:12:3: undeclared dependency"

/-- The `Result` the build-log parser produces on `c4stdout`. -/
def c4res : Result :=
  { Title := "Build result"
    Summary := "Build doesn't complete successfully"
    Conclusion := "failure"
    Annotations := [{ Message := " undeclared dependency", Line := 12, Path := "pkg/BUILD",
                      Severity := "failure" }]
    URL := "https://x/y"
    Action := none }

/-- The `Result` the formatting parser produces on the single stderr line
`"/tmp/r/BUILD # comment"` with root `/tmp/r`. -/
def c3res : Result :=
  { Title := "Buildifier Lint Result"
    Summary := "1 BUILD files need reformat"
    Conclusion := "failure"
    Annotations := [{ Message := "file \"BUILD\" needs reformat", Line := 1, Path := "BUILD",
                      Severity := "failure" }]
    URL := ""
    Action := some { Label := "Fix this"
                     Description := "Automatically fix buildifier errors."
                     Identifier := "buildifier-fix" } }

/-- An all-successful environment for the remediation flow. -/
def c9ActionEnv : ActionEnv :=
  { identifier := "buildifier-fix", cloneErr := none, tokenErr := none, getwdErr := none
    chdirErr := none, checkoutOut := "", checkoutErrStream := "", checkoutErr := none
    fixOut := "", fixErrStream := "", fixErr := none, commitOut := "", commitErrStream := ""
    commitErr := none, pushOut := "", pushErrStream := "", pushErr := none
    chdirBackErr := none }

/-- An all-successful environment for the check-run flow. -/
def c9InitEnv : InitEnv :=
  { update1Err := none, cloneErr := none, checkName := "buildifier"
    checkRes := some c3res, checkErr := none, update2Err := none }

/-! ## Helper lemmas -/

theorem splitOnChar_ne_nil (sep : Char) (l : List Char) : splitOnChar sep l ≠ [] := by
  cases l with
  | nil => simp [splitOnChar]
  | cons c cs =>
    unfold splitOnChar
    cases h : splitOnChar sep cs with
    | nil => simp
    | cons p ps => by_cases hc : c = sep <;> simp [hc]

theorem buildifierScan_eq (dir : String) (lines : List String) :
    buildifierScan dir lines = lines.map (fun l => buildifierAnnot dir l.data) := by
  suffices h : ∀ acc : List Annot,
      lines.foldl
        (fun anns l =>
          if (splitOnChar '#' l.data).length > 0 then anns ++ [buildifierAnnot dir l.data]
          else anns)
        acc = acc ++ lines.map (fun l => buildifierAnnot dir l.data) by
    simpa [buildifierScan] using h []
  induction lines with
  | nil => simp
  | cons l ls ih =>
    intro acc
    have hg : (splitOnChar '#' l.data).length > 0 :=
      List.length_pos.mpr (splitOnChar_ne_nil '#' l.data)
    simp [hg, ih]

theorem buildifierScan_len (dir : String) (lines : List String) :
    (buildifierScan dir lines).length = lines.length := by
  rw [buildifierScan_eq]; simp

theorem checkBuildifier_none (dir stdErr : String) :
    checkBuildifier dir "" stdErr none = (some (buildifierResult dir stdErr), none) := by
  by_cases h : stdErr.length > 0
  · simp only [checkBuildifier, runCmd, if_pos h]
    by_cases h2 : stdErr = "" <;> simp [h2]
  · simp only [checkBuildifier, runCmd, if_neg h]
    by_cases h2 : stdErr = "" <;> simp [h2]

theorem buildifierResult_annsEq (dir stdErr : String) :
    (buildifierResult dir stdErr).Annotations = buildifierScan dir (scanLines stdErr) := by
  unfold buildifierResult
  by_cases h : (buildifierScan dir (scanLines stdErr)).length > 0 <;> simp [h]
  have h0 : (buildifierScan dir (scanLines stdErr)).length = 0 := by omega
  exact List.length_eq_zero.mp h0

theorem buildifierResult_len (dir stdErr : String) :
    (buildifierResult dir stdErr).Annotations.length = (scanLines stdErr).length := by
  rw [buildifierResult_annsEq, buildifierScan_len]

theorem buildifierResult_conclusion (dir stdErr : String) :
    (buildifierResult dir stdErr).Conclusion = conclusionFor (scanLines stdErr).length := by
  have hl := buildifierScan_len dir (scanLines stdErr)
  unfold buildifierResult
  by_cases h : (buildifierScan dir (scanLines stdErr)).length > 0
  · have h2 : (scanLines stdErr).length ≠ 0 := by omega
    simp [h, conclusionFor, h2]
  · have h2 : (scanLines stdErr).length = 0 := by omega
    simp [h, conclusionFor, h2]

theorem buildifierAnnot_wf (dir : String) (l : List Char) :
    wellFormedAnn (buildifierAnnot dir l) = true := by
  simp [wellFormedAnn, buildifierAnnot]

theorem buildifierScan_all_wf (dir : String) (lines : List String) :
    (buildifierScan dir lines).all wellFormedAnn = true := by
  rw [buildifierScan_eq, List.all_eq_true]
  intro a ha
  rw [List.mem_map] at ha
  obtain ⟨l, _, rfl⟩ := ha
  exact buildifierAnnot_wf dir l.data

theorem bazelStep_AS (s : BazelState) (raw : List Char) :
    ((bazelStep s raw).anns, (bazelStep s raw).seen) = bazelStepAS (s.anns, s.seen) raw := rfl

theorem bazelFold_cons (s : BazelState) (l : String) (ls : List String) :
    bazelFold s (l :: ls) = bazelFold (bazelStep s l.data) ls := rfl

theorem bazelFoldAS_cons (p : List Annot × List (List Char)) (l : String) (ls : List String) :
    bazelFoldAS p (l :: ls) = bazelFoldAS (bazelStepAS p l.data) ls := rfl

theorem bazelFold_AS (lines : List String) (s : BazelState) :
    ((bazelFold s lines).anns, (bazelFold s lines).seen)
      = bazelFoldAS (s.anns, s.seen) lines := by
  induction lines generalizing s with
  | nil => rfl
  | cons l ls ih =>
    rw [bazelFold_cons, bazelFoldAS_cons, ← bazelStep_AS]
    exact ih (bazelStep s l.data)

theorem stepAS_noise (p : List Annot × List (List Char)) (raw : List Char)
    (h : isNoise (trimSpace raw) = true) : bazelStepAS p raw = p := by
  unfold bazelStepAS
  simp [h]

theorem stepAS_nomatch (p : List Annot × List (List Char)) (raw : List Char)
    (h : lineCommentMatch (trimSpace raw) = none) : bazelStepAS p raw = p := by
  unfold bazelStepAS
  cases hn : isNoise (trimSpace raw) <;> simp [hn, h]

theorem stepAS_dup (p : List Annot × List (List Char)) (raw : List Char)
    (h : trimSpace raw ∈ p.2) : bazelStepAS p raw = p := by
  unfold bazelStepAS
  cases hn : isNoise (trimSpace raw) with
  | true => simp [hn]
  | false =>
    simp only [hn]
    cases hm : lineCommentMatch (trimSpace raw) with
    | none => simp
    | some x =>
      obtain ⟨f, d1, c, cm⟩ := x
      simp [h]

theorem stepAS_new (p : List Annot × List (List Char)) (raw f d1 c cm : List Char)
    (hn : isNoise (trimSpace raw) = false)
    (hm : lineCommentMatch (trimSpace raw) = some (f, d1, c, cm))
    (hc : trimSpace raw ∉ p.2) :
    bazelStepAS p raw = (p.1 ++ [mkBazelAnn f d1 cm], trimSpace raw :: p.2) := by
  unfold bazelStepAS
  simp [hn, hm, hc]

theorem matchedTrimmed_cons (l : String) (ls : List String) :
    matchedTrimmed (l :: ls)
      = if !isNoise (trimSpace l.data) && (lineCommentMatch (trimSpace l.data)).isSome
        then trimSpace l.data :: matchedTrimmed ls
        else matchedTrimmed ls := by
  simp [matchedTrimmed, List.filter_cons]

theorem bazelFoldAS_len (lines : List String) (p : List Annot × List (List Char)) :
    (bazelFoldAS p lines).1.length
      = p.1.length + countDistinctFrom p.2 (matchedTrimmed lines) := by
  induction lines generalizing p with
  | nil => simp [bazelFoldAS, matchedTrimmed, countDistinctFrom]
  | cons l ls ih =>
    rw [bazelFoldAS_cons, matchedTrimmed_cons]
    cases hn : isNoise (trimSpace l.data) with
    | true => rw [stepAS_noise p l.data hn, ih]; simp [hn]
    | false =>
      cases hm : lineCommentMatch (trimSpace l.data) with
      | none => rw [stepAS_nomatch p l.data hm, ih]; simp [hn, hm]
      | some x =>
        obtain ⟨f, d1, c, cm⟩ := x
        by_cases hc : trimSpace l.data ∈ p.2
        · rw [stepAS_dup p l.data hc, ih]
          simp [hn, hm, countDistinctFrom, hc]
        · rw [stepAS_new p l.data f d1 c cm hn hm hc, ih]
          simp [hn, hm, countDistinctFrom, hc]
          omega

theorem stepAS_seen_mono (p : List Annot × List (List Char)) (raw t : List Char)
    (h : t ∈ p.2) : t ∈ (bazelStepAS p raw).2 := by
  cases hn : isNoise (trimSpace raw) with
  | true => rw [stepAS_noise p raw hn]; exact h
  | false =>
    unfold bazelStepAS
    simp only [hn]
    cases hm : lineCommentMatch (trimSpace raw) with
    | none => simpa using h
    | some x =>
      obtain ⟨f, d1, c, cm⟩ := x
      by_cases hc : trimSpace raw ∈ p.2
      · simpa [hc] using h
      · simp [hc]
        exact Or.inr h

theorem bazelFoldAS_seen_mono (lines : List String) (p : List Annot × List (List Char))
    (t : List Char) (h : t ∈ p.2) : t ∈ (bazelFoldAS p lines).2 := by
  induction lines generalizing p with
  | nil => exact h
  | cons l ls ih => exact ih _ (stepAS_seen_mono p l.data t h)

theorem stepAS_absorb (p : List Annot × List (List Char)) (raw : List Char)
    (h : matchedOf raw = true) : trimSpace raw ∈ (bazelStepAS p raw).2 := by
  unfold matchedOf at h
  rw [Bool.and_eq_true] at h
  obtain ⟨hn, hs⟩ := h
  rw [Bool.not_eq_true'] at hn
  rw [Option.isSome_iff_exists] at hs
  obtain ⟨x, hx⟩ := hs
  obtain ⟨f, d1, c, cm⟩ := x
  unfold bazelStepAS
  simp only [hn]
  by_cases hc : trimSpace raw ∈ p.2
  · simp [hx, hc]
  · simp [hx, hc]

theorem stepAS_id (p : List Annot × List (List Char)) (raw : List Char)
    (h : matchedOf raw = true → trimSpace raw ∈ p.2) :
    bazelStepAS p raw = p := by
  cases hn : isNoise (trimSpace raw) with
  | true => exact stepAS_noise p raw hn
  | false =>
    cases hm : lineCommentMatch (trimSpace raw) with
    | none => exact stepAS_nomatch p raw hm
    | some x =>
      have hmt : matchedOf raw = true := by unfold matchedOf; simp [hn, hm]
      exact stepAS_dup p raw (h hmt)

theorem bazelFoldAS_append (p : List Annot × List (List Char)) (xs ys : List String) :
    bazelFoldAS p (xs ++ ys) = bazelFoldAS (bazelFoldAS p xs) ys := by
  simp [bazelFoldAS, List.foldl_append]

theorem bazelFoldAS_dup (p : List Annot × List (List Char)) (pre mid post : List String)
    (l : String) :
    bazelFoldAS p (pre ++ (l :: mid) ++ (l :: post))
      = bazelFoldAS p (pre ++ l :: (mid ++ post)) := by
  have key : ∀ q : List Annot × List (List Char),
      bazelStepAS (bazelFoldAS (bazelStepAS q l.data) mid) l.data
        = bazelFoldAS (bazelStepAS q l.data) mid := by
    intro q
    apply stepAS_id
    intro hm
    exact bazelFoldAS_seen_mono mid _ _ (stepAS_absorb q l.data hm)
  calc bazelFoldAS p (pre ++ (l :: mid) ++ (l :: post))
      = bazelFoldAS (bazelFoldAS p (pre ++ (l :: mid))) (l :: post) :=
        bazelFoldAS_append _ _ _
    _ = bazelFoldAS (bazelFoldAS (bazelFoldAS p pre) (l :: mid)) (l :: post) := by
        rw [bazelFoldAS_append]
    _ = bazelFoldAS
          (bazelStepAS (bazelFoldAS (bazelStepAS (bazelFoldAS p pre) l.data) mid) l.data)
          post := rfl
    _ = bazelFoldAS (bazelFoldAS (bazelStepAS (bazelFoldAS p pre) l.data) mid) post := by
          rw [key]
    _ = bazelFoldAS (bazelStepAS (bazelFoldAS p pre) l.data) (mid ++ post) :=
        (bazelFoldAS_append _ mid post).symm
    _ = bazelFoldAS (bazelFoldAS p pre) (l :: (mid ++ post)) := rfl
    _ = bazelFoldAS p (pre ++ l :: (mid ++ post)) := (bazelFoldAS_append p pre _).symm

theorem bazelStep_url_keep (s : BazelState) (raw : List Char) (h : s.url ≠ []) :
    (bazelStep s raw).url = s.url := by
  unfold bazelStep
  simp [h]

theorem bazelFold_url_keep (lines : List String) (s : BazelState) (h : s.url ≠ []) :
    (bazelFold s lines).url = s.url := by
  induction lines generalizing s with
  | nil => rfl
  | cons l ls ih =>
    rw [bazelFold_cons]
    have hk := bazelStep_url_keep s l.data h
    rw [ih (bazelStep s l.data) (by rw [hk]; exact h), hk]

theorem bazelResult_annotationsEq (lines : List String) :
    (bazelResult lines).Annotations = (bazelParse lines).anns := by
  unfold bazelResult
  by_cases h : (bazelParse lines).anns.length = 0 <;> simp [h]
  exact List.length_eq_zero.mp h

theorem bazelResult_url (lines : List String) :
    (bazelResult lines).URL = String.mk (bazelParse lines).url := by
  unfold bazelResult
  by_cases h : (bazelParse lines).anns.length = 0 <;> simp [h]

theorem bazelResult_conclusion (lines : List String) :
    (bazelResult lines).Conclusion = conclusionFor (bazelParse lines).anns.length := by
  unfold bazelResult conclusionFor
  by_cases h : (bazelParse lines).anns.length = 0 <;> simp [h]

theorem bazelParse_eq_fold (lines : List String) :
    bazelParse lines = bazelFold { url := [], seen := [], anns := [] } lines := rfl

theorem bazelParse_anns_AS (lines : List String) :
    (bazelParse lines).anns = (bazelFoldAS ([], []) lines).1 := by
  rw [bazelParse_eq_fold]
  exact congrArg Prod.fst (bazelFold_AS lines { url := [], seen := [], anns := [] })

theorem bazelParse_anns_len (lines : List String) :
    (bazelParse lines).anns.length = countDistinctFrom [] (matchedTrimmed lines) := by
  rw [bazelParse_anns_AS, bazelFoldAS_len]
  simp

theorem splitOnChar_cons_eq (sep a : Char) (as p : List Char) (ps : List (List Char))
    (h : splitOnChar sep as = p :: ps) :
    splitOnChar sep (a :: as) = if a = sep then [] :: p :: ps else (a :: p) :: ps := by
  unfold splitOnChar
  rw [h]

theorem splitOnChar_sep_not_mem (sep : Char) (l : List Char) :
    ∀ c ∈ splitOnChar sep l, sep ∉ c := by
  induction l with
  | nil =>
    intro c hc
    simp [splitOnChar] at hc
    simp [hc]
  | cons a as ih =>
    intro c hc
    cases h : splitOnChar sep as with
    | nil => exact absurd h (splitOnChar_ne_nil sep as)
    | cons p ps =>
      rw [splitOnChar_cons_eq sep a as p ps h] at hc
      have ihp : sep ∉ p := ih p (by rw [h]; exact List.mem_cons_self p ps)
      by_cases ha : a = sep
      · rw [if_pos ha] at hc
        rcases List.mem_cons.mp hc with hc | hc
        · simp [hc]
        · exact ih c (by rw [h]; exact hc)
      · rw [if_neg ha] at hc
        rcases List.mem_cons.mp hc with hc | hc
        · rw [hc]
          intro hmem
          rcases List.mem_cons.mp hmem with hmem | hmem
          · exact ha hmem.symm
          · exact ihp hmem
        · exact ih c (by rw [h]; exact List.mem_cons_of_mem p hc)

theorem pathComps_wf (p : List Char) : ∀ c ∈ pathComps p, c ≠ [] ∧ '/' ∉ c := by
  intro c hc
  unfold pathComps at hc
  rw [List.mem_filter] at hc
  obtain ⟨hmem, hp⟩ := hc
  refine ⟨?_, splitOnChar_sep_not_mem '/' p c hmem⟩
  simp at hp
  exact hp.1

theorem cleanComps_wf (ab : Bool) (l : List (List Char)) :
    ∀ acc : List (List Char), (∀ c ∈ acc, c ≠ [] ∧ '/' ∉ c) →
      (∀ c ∈ l, c ≠ [] ∧ '/' ∉ c) →
      ∀ c ∈ cleanComps ab acc l, c ≠ [] ∧ '/' ∉ c := by
  induction l with
  | nil =>
    intro acc hacc _ c hc
    simp only [cleanComps] at hc
    rw [List.mem_reverse] at hc
    exact hacc c hc
  | cons a as ih =>
    intro acc hacc hl c hc
    have ha := hl a (List.mem_cons_self a as)
    have has : ∀ c ∈ as, c ≠ [] ∧ '/' ∉ c := fun c hm => hl c (List.mem_cons_of_mem a hm)
    cases acc with
    | nil =>
      simp only [cleanComps] at hc
      by_cases hda : a = ['.', '.']
      · rw [if_pos hda] at hc
        by_cases hab : ab = true
        · rw [if_pos hab] at hc
          exact ih [] (by simp) has c hc
        · rw [if_neg hab] at hc
          exact ih [a] (by intro x hx; rw [List.mem_singleton.mp hx]; exact ha) has c hc
      · rw [if_neg hda] at hc
        exact ih [a] (by intro x hx; rw [List.mem_singleton.mp hx]; exact ha) has c hc
    | cons b bs =>
      simp only [cleanComps] at hc
      have hb := hacc b (List.mem_cons_self b bs)
      have hbs : ∀ c ∈ bs, c ≠ [] ∧ '/' ∉ c :=
        fun c hm => hacc c (List.mem_cons_of_mem b hm)
      have hab : ∀ x ∈ a :: b :: bs, x ≠ [] ∧ '/' ∉ x := by
        intro x hx
        rcases List.mem_cons.mp hx with hx | hx
        · rw [hx]; exact ha
        · exact hacc x hx
      by_cases hda : a = ['.', '.']
      · rw [if_pos hda] at hc
        by_cases hdb : b = ['.', '.']
        · rw [if_pos hdb] at hc
          exact ih (a :: b :: bs) hab has c hc
        · rw [if_neg hdb] at hc
          exact ih bs hbs has c hc
      · rw [if_neg hda] at hc
        exact ih (a :: b :: bs) hab has c hc

theorem cleaned_wf (p : List Char) : ∀ c ∈ cleaned p, c ≠ [] ∧ '/' ∉ c :=
  cleanComps_wf (isAbs p) (pathComps p) [] (by simp) (pathComps_wf p)

theorem stripCommon_self_append (b r : List (List Char)) :
    stripCommon b (b ++ r) = ([], r) := by
  induction b with
  | nil => cases r <;> rfl
  | cons x xs ih => simp [stripCommon, ih]

theorem joinComps_cons_ne (c : List Char) (cs : List (List Char)) (hc : c ≠ []) :
    joinComps (c :: cs) ≠ [] := by
  cases cs with
  | nil => simpa [joinComps] using hc
  | cons c2 cs2 => simp [joinComps]

theorem joinComps_not_abs (cs : List (List Char)) (h : ∀ c ∈ cs, c ≠ [] ∧ '/' ∉ c) :
    isAbs (joinComps cs) = false := by
  cases cs with
  | nil => rfl
  | cons c cs2 =>
    obtain ⟨hne, hns⟩ := h c (List.mem_cons_self c cs2)
    cases c with
    | nil => exact absurd rfl hne
    | cons ch ct =>
      have hch : ch ≠ '/' := by
        intro he
        exact hns (he ▸ List.mem_cons_self ch ct)
      cases cs2 with
      | nil => simp [joinComps, isAbs, hch]
      | cons d ds => simp [joinComps, isAbs, hch]

theorem relPath_underRoot (root p : String) (h : underRoot root p = true) :
    ∃ r, relPath root.data p.data = some r ∧ r ≠ [] ∧ isAbs r = false := by
  unfold underRoot at h
  rw [Bool.and_eq_true, Bool.and_eq_true] at h
  obtain ⟨⟨hb, hp⟩, hx⟩ := h
  obtain ⟨r0, hr0⟩ := List.isPrefixOf_iff_prefix.mp hx
  have hrest : ∀ c ∈ r0, c ≠ [] ∧ '/' ∉ c := by
    intro c hc
    exact cleaned_wf p.data c (by rw [← hr0]; exact List.mem_append_right _ hc)
  unfold relPath
  rw [hb, hp]
  simp only [bne_self_eq_false, Bool.false_eq_true, if_false]
  rw [show cleaned p.data = cleaned root.data ++ r0 from hr0.symm, stripCommon_self_append]
  cases r0 with
  | nil => exact ⟨['.'], rfl, by simp, rfl⟩
  | cons c cs =>
    refine ⟨joinComps (c :: cs), rfl, ?_, joinComps_not_abs _ hrest⟩
    exact joinComps_cons_ne c cs (hrest c (List.mem_cons_self c cs)).1

theorem stringMk_ne_empty (r : List Char) (h : r ≠ []) : String.mk r ≠ "" := by
  intro he
  exact h (congrArg String.data he)

theorem bazelFold_append (s : BazelState) (xs ys : List String) :
    bazelFold s (xs ++ ys) = bazelFold (bazelFold s xs) ys := by
  simp [bazelFold, List.foldl_append]

theorem atoi_fst_nonneg (l : List Char) : 0 ≤ (atoi l).1 := by
  unfold atoi
  by_cases h : digitsToNat l > maxGoInt <;> simp [h]

theorem mkBazelAnn_nonneg (f d1 cm : List Char) : lineNonneg (mkBazelAnn f d1 cm) = true := by
  simp only [lineNonneg, mkBazelAnn, decide_eq_true_eq]
  exact atoi_fst_nonneg d1

theorem stepAS_anns_shape (p : List Annot × List (List Char)) (raw : List Char) :
    (bazelStepAS p raw).1 = p.1
    ∨ ∃ f d1 cm : List Char, (bazelStepAS p raw).1 = p.1 ++ [mkBazelAnn f d1 cm] := by
  cases hn : isNoise (trimSpace raw) with
  | true => left; rw [stepAS_noise p raw hn]
  | false =>
    cases hm : lineCommentMatch (trimSpace raw) with
    | none => left; rw [stepAS_nomatch p raw hm]
    | some x =>
      obtain ⟨f, d1, c, cm⟩ := x
      by_cases hc : trimSpace raw ∈ p.2
      · left; rw [stepAS_dup p raw hc]
      · right; exact ⟨f, d1, cm, by rw [stepAS_new p raw f d1 c cm hn hm hc]⟩

theorem bazelFoldAS_all_nonneg (lines : List String) (p : List Annot × List (List Char))
    (hp : p.1.all lineNonneg = true) : (bazelFoldAS p lines).1.all lineNonneg = true := by
  induction lines generalizing p with
  | nil => exact hp
  | cons l ls ih =>
    rw [bazelFoldAS_cons]
    refine ih _ ?_
    rcases stepAS_anns_shape p l.data with hs | ⟨f, d1, cm, hs⟩
    · rw [hs]; exact hp
    · rw [hs, List.all_append]
      simp [hp, mkBazelAnn_nonneg]

theorem matchedTrimmed_nil : matchedTrimmed [] = [] := rfl

theorem matchedTrimmed_matched_cons (l : String) (ls : List String)
    (h : matchedOf l.data = true) :
    matchedTrimmed (l :: ls) = trimSpace l.data :: matchedTrimmed ls := by
  unfold matchedOf at h
  rw [matchedTrimmed_cons, if_pos h]

theorem extractBuildifierRes (dir stdErr : String) (res : Result)
    (h : (checkBuildifier dir "" stdErr none).1 = some res) :
    res = buildifierResult dir stdErr := by
  have h2 := congrArg Prod.fst (checkBuildifier_none dir stdErr)
  rw [h] at h2
  exact (Option.some.injEq _ _ ▸ h2 :)

/-! ## Claims -/

/-- C1 counterexample: the formatting-check runner with an empty stderr
and no execution error does NOT return a nil `Result` — it synthesizes a
success `Result`, contradicting the claim that it "never synthesizes a
Result in that case". -/
theorem C1_counterexample :
    (checkBuildifier "/tmp/o/r/buildifier" "" "" none).1
      = some { Title := "Buildifier Lint Result", Summary := "No issues found.",
               Conclusion := "success", Annotations := [], URL := "", Action := none }
    ∧ (checkBuildifier "/tmp/o/r/buildifier" "" "" none).1 ≠ none := by decide

/-- C1 (amended): the build check with empty stdout returns the tool's
(`runCmd`-filtered) error and no `Result`; the formatting check with empty
stderr returns the error and no `Result` only when the error is non-nil —
with a nil error it synthesizes a zero-annotation success `Result`. -/
theorem C1_amended (dir errStream : String) (e : Option String) (msg : String) :
    checkBazelBuild dir none none "" errStream e none = (none, (runCmd "" errStream e).2.2)
    ∧ (e = some msg → checkBuildifier dir "" "" e = (none, some msg))
    ∧ checkBuildifier dir "" "" none
        = (some { Title := "Buildifier Lint Result", Summary := "No issues found.",
                  Conclusion := "success", Annotations := [], URL := "", Action := none },
           none) := by
  have hemp : ¬ (("" : String).length > 0) := by decide
  refine ⟨?_, ?_, ?_⟩
  · have h1 : (runCmd "" errStream e).1 = "" := by
      unfold runCmd
      by_cases h : errStream.length > 0 <;> simp [h]
    unfold checkBazelBuild
    simp [h1]
  · intro he
    subst he
    unfold checkBuildifier runCmd
    simp [hemp]
  · rw [checkBuildifier_none]
    have hres : buildifierResult dir ""
        = { Title := "Buildifier Lint Result", Summary := "No issues found.",
            Conclusion := "success", Annotations := [], URL := "", Action := none } := by
      have hs : scanLines "" = [] := rfl
      unfold buildifierResult
      rw [hs]
      simp [buildifierScan]
    rw [hres]

/-- C1 amended witness: the theorem applied at concrete inputs. -/
theorem C1_amended_witness :
    checkBazelBuild "/d" none none "" "" (some "exit status 1") none
      = (none, (runCmd "" "" (some "exit status 1")).2.2)
    ∧ checkBuildifier "/d" "" "" (some "exit status 1") = (none, some "exit status 1") :=
  ⟨(C1_amended "/d" "" (some "exit status 1") "exit status 1").1,
   (C1_amended "/d" "" (some "exit status 1") "exit status 1").2.1 rfl⟩

/-- C2 counterexample: the formatting parser does not deduplicate — two
identical stderr lines yield two annotations, while the number of distinct
(after dedup) matching lines is one. -/
theorem C2_counterexample :
    (resultOrDefault (checkBuildifier "/tmp/r" "" "a\na" none).1).Annotations.length = 2
    ∧ countDistinctFrom ([] : List String) (scanLines "a\na") = 1 := by decide

/-- C2 (amended): zero matching lines give `success` with no annotations
and at least one gives `failure` in both parsers; the formatting parser
emits one annotation per scanned line (duplicates included, no dedup),
while the build-log parser emits one per distinct (after dedup) matching
diagnostic line. -/
theorem C2_amended (dir stdErr : String) (lines : List String) (res : Result)
    (h : (checkBuildifier dir "" stdErr none).1 = some res) :
    res.Annotations.length = (scanLines stdErr).length
    ∧ res.Conclusion = conclusionFor (scanLines stdErr).length
    ∧ (bazelResult lines).Annotations.length = countDistinctFrom [] (matchedTrimmed lines)
    ∧ (bazelResult lines).Conclusion
        = conclusionFor (countDistinctFrom [] (matchedTrimmed lines)) := by
  rw [extractBuildifierRes dir stdErr res h]
  refine ⟨buildifierResult_len dir stdErr, buildifierResult_conclusion dir stdErr, ?_, ?_⟩
  · rw [bazelResult_annotationsEq, bazelParse_anns_len]
  · rw [bazelResult_conclusion, bazelParse_anns_len]

/-- C2 amended witness: the theorem applied at concrete inputs. -/
theorem C2_amended_witness :
    ({ Title := "Buildifier Lint Result", Summary := "No issues found.",
       Conclusion := "success", Annotations := [], URL := "",
       Action := none } : Result).Annotations.length = (scanLines "").length
    ∧ ({ Title := "Buildifier Lint Result", Summary := "No issues found.",
         Conclusion := "success", Annotations := [], URL := "",
         Action := none } : Result).Conclusion = conclusionFor (scanLines "").length
    ∧ (bazelResult ["a:1:2:c"]).Annotations.length
        = countDistinctFrom [] (matchedTrimmed ["a:1:2:c"])
    ∧ (bazelResult ["a:1:2:c"]).Conclusion
        = conclusionFor (countDistinctFrom [] (matchedTrimmed ["a:1:2:c"])) :=
  C2_amended "/tmp/r" "" ["a:1:2:c"]
    { Title := "Buildifier Lint Result", Summary := "No issues found.",
      Conclusion := "success", Annotations := [], URL := "", Action := none }
    (by decide)

/-- C3 counterexample: the message template quotes the path (Go `%q`), so
the message on the spec's own example is `file "BUILD" needs reformat`,
not `file BUILD needs reformat`. -/
theorem C3_counterexample :
    annMessages (resultOrDefault (checkBuildifier "/tmp/r" "" "/tmp/r/BUILD # comment" none).1)
      = ["file \"BUILD\" needs reformat"]
    ∧ annMessages
        (resultOrDefault (checkBuildifier "/tmp/r" "" "/tmp/r/BUILD # comment" none).1)
      ≠ ["file BUILD needs reformat"] := by decide

/-- C3 (amended): every matched line produces exactly one annotation, at
line 1 with `failure` severity and message `file "<path>" needs reformat`
(the path quoted Go-style); with one or more annotations the conclusion is
`failure` and the `Action` carries the `buildifier-fix` identifier. -/
theorem C3_amended (dir stdErr : String) (res : Result)
    (h : (checkBuildifier dir "" stdErr none).1 = some res)
    (hne : res.Annotations ≠ []) :
    res.Annotations.all wellFormedAnn = true
    ∧ res.Annotations.length = (scanLines stdErr).length
    ∧ res.Conclusion = "failure"
    ∧ fixAction res.Action = true := by
  rw [extractBuildifierRes dir stdErr res h] at hne ⊢
  rw [buildifierResult_annsEq] at hne
  have hl : (buildifierScan dir (scanLines stdErr)).length > 0 := List.length_pos.mpr hne
  refine ⟨?_, buildifierResult_len dir stdErr, ?_, ?_⟩
  · rw [buildifierResult_annsEq]
    exact buildifierScan_all_wf dir _
  · unfold buildifierResult
    simp [hl]
  · unfold buildifierResult
    simp [hl, fixAction]

/-- C3 amended witness: the theorem applied at the spec's example line. -/
theorem C3_amended_witness :
    c3res.Annotations.all wellFormedAnn = true
    ∧ c3res.Annotations.length = (scanLines "/tmp/r/BUILD # comment").length
    ∧ c3res.Conclusion = "failure"
    ∧ fixAction c3res.Action = true :=
  C3_amended "/tmp/r" "/tmp/r/BUILD # comment" c3res (by decide) (by decide)

/-- C4 counterexample: on the spec's four-line example everything matches
the claim except the message, which keeps the space after the third colon:
it is `" undeclared dependency"`, not `"undeclared dependency"`. -/
theorem C4_counterexample :
    (checkBazelBuild "/tmp/r" none none c4stdout "" none none).1 = some c4res
    ∧ annMessages c4res ≠ ["undeclared dependency"] := by decide

/-- C4 (amended): on the four-line example the `Result` has URL
`https://x/y`, exactly one annotation with path `pkg/BUILD`, line 12 and
message `" undeclared dependency"` (the text after the third colon as-is,
leading space included), and conclusion `failure`. -/
theorem C4_amended :
    (checkBazelBuild "/tmp/r" none none c4stdout "" none none).1 = some c4res := by decide

/-- C5: dedup behavior of the build-log parser — dropping a repeated line
leaves the annotations unchanged (one annotation per repeated line, and
purity gives each separate invocation its own fresh dedup set), a single
diagnostic line yields exactly one annotation in an invocation, and two
diagnostic lines that differ after trimming each produce their own
annotation. -/
theorem C5_dedup (pre mid post : List String) (l l1 l2 : String)
    (h1 : matchedOf l1.data = true) (h2 : matchedOf l2.data = true)
    (hne : trimSpace l1.data ≠ trimSpace l2.data) :
    (bazelResult (pre ++ (l :: mid) ++ (l :: post))).Annotations
        = (bazelResult (pre ++ l :: (mid ++ post))).Annotations
    ∧ (bazelResult [l1, l2]).Annotations.length = 2
    ∧ (bazelResult [l1]).Annotations.length = 1
    ∧ (bazelResult [l2]).Annotations.length = 1 := by
  have hne2 : ¬ trimSpace l2.data = trimSpace l1.data := fun he => hne he.symm
  have hmem : trimSpace l2.data ∉ [trimSpace l1.data] := by
    simp [List.mem_singleton, hne2]
  refine ⟨?_, ?_, ?_, ?_⟩
  · rw [bazelResult_annotationsEq, bazelResult_annotationsEq, bazelParse_anns_AS,
      bazelParse_anns_AS, bazelFoldAS_dup]
  · rw [bazelResult_annotationsEq, bazelParse_anns_len,
      matchedTrimmed_matched_cons l1 [l2] h1, matchedTrimmed_matched_cons l2 [] h2,
      matchedTrimmed_nil]
    simp [countDistinctFrom, hmem, hne2]
  · rw [bazelResult_annotationsEq, bazelParse_anns_len,
      matchedTrimmed_matched_cons l1 [] h1, matchedTrimmed_nil]
    simp [countDistinctFrom]
  · rw [bazelResult_annotationsEq, bazelParse_anns_len,
      matchedTrimmed_matched_cons l2 [] h2, matchedTrimmed_nil]
    simp [countDistinctFrom]

/-- C5 witness: the theorem applied at concrete diagnostic lines. -/
theorem C5_dedup_witness :
    (bazelResult (["x"] ++ ("a:1:2:m" :: ["y"]) ++ ("a:1:2:m" :: ["z"]))).Annotations
        = (bazelResult (["x"] ++ "a:1:2:m" :: (["y"] ++ ["z"]))).Annotations
    ∧ (bazelResult ["a:1:2:m", "b:3:4:n"]).Annotations.length = 2
    ∧ (bazelResult ["a:1:2:m"]).Annotations.length = 1
    ∧ (bazelResult ["b:3:4:n"]).Annotations.length = 1 :=
  C5_dedup ["x"] ["y"] ["z"] "a:1:2:m" "a:1:2:m" "b:3:4:n" (by decide) (by decide) (by decide)

/-- C6 counterexample: the build-log parser copies the matched file field
verbatim, so a diagnostic naming a path under the provisioning root by its
absolute name yields an annotation with an absolute path. -/
theorem C6_counterexample :
    annPaths
        (resultOrDefault
          (checkBazelBuild "/tmp/r" none none "/tmp/r/BUILD:1:2: msg" "" none none).1)
      = ["/tmp/r/BUILD"]
    ∧ underRoot "/tmp/r" "/tmp/r/BUILD" = true
    ∧ isAbsStr "/tmp/r/BUILD" = true := by decide

/-- C6 (amended): in the formatting-check parser an input path under the
provisioning root yields a non-empty, non-absolute annotation path; a
failed relative-path conversion is logged, leaves the annotation with an
empty path, and does not abort the scan (a `Result` is still produced).
The build-log parser is not covered: it passes the matched file field
through verbatim. -/
theorem C6_amended (dir stdErr l l2 : String)
    (hu : underRoot dir (targetOf l) = true)
    (hfail : relPath dir.data (targetOf l2).data = none) :
    (buildifierAnnot dir l.data).Path ≠ ""
    ∧ isAbsStr (buildifierAnnot dir l.data).Path = false
    ∧ (buildifierAnnot dir l2.data).Path = ""
    ∧ ((checkBuildifier dir "" stdErr none).1).isSome = true := by
  obtain ⟨r, hr, hne, hab⟩ := relPath_underRoot dir (targetOf l) hu
  have hr2 : relPath dir.data (trimSpace (beforeHash l.data)) = some r := hr
  have hpath : (buildifierAnnot dir l.data).Path = String.mk r := by
    unfold buildifierAnnot
    rw [hr2]
    rfl
  have hf2 : relPath dir.data (trimSpace (beforeHash l2.data)) = none := hfail
  refine ⟨?_, ?_, ?_, ?_⟩
  · rw [hpath]
    exact stringMk_ne_empty r hne
  · rw [hpath]
    exact hab
  · unfold buildifierAnnot
    rw [hf2]
    rfl
  · rw [checkBuildifier_none]
    rfl

/-- C6 amended witness: the theorem applied at concrete lines (one under
the root, one whose conversion fails). -/
theorem C6_amended_witness :
    (buildifierAnnot "/tmp/r" "/tmp/r/pkg/BUILD # x".data).Path ≠ ""
    ∧ isAbsStr (buildifierAnnot "/tmp/r" "/tmp/r/pkg/BUILD # x".data).Path = false
    ∧ (buildifierAnnot "/tmp/r" "x y".data).Path = ""
    ∧ ((checkBuildifier "/tmp/r" "" "w" none).1).isSome = true :=
  C6_amended "/tmp/r" "w" "/tmp/r/pkg/BUILD # x" "x y" (by decide) (by decide)

/-- C7 counterexample: the diagnostic `pkg/BUILD:0:1: msg` parses with
line number 0 — the build-log parser does not enforce 1-based lines. -/
theorem C7_counterexample :
    annLines
        (resultOrDefault
          (checkBazelBuild "/tmp/r" none none "pkg/BUILD:0:1: msg" "" none none).1)
      = [0]
    ∧ ¬ (1 ≤ (0 : Int)) := by decide

/-- C7 (amended): formatting-parser annotations always carry line 1;
build-log annotations carry the parsed digits as a nonnegative integer
(possibly 0), and an out-of-range line number is logged, clamped to the
maximum Go int, and still annotated — the conversion error aborts
nothing. -/
theorem C7_amended (dir stdErr : String) (lines : List String) (res : Result)
    (h : (checkBuildifier dir "" stdErr none).1 = some res) :
    res.Annotations.all lineIsOne = true
    ∧ (bazelResult lines).Annotations.all lineNonneg = true
    ∧ annLines (bazelResult ["a:99999999999999999999:2: overflow"])
        = [(9223372036854775807 : Int)] := by
  refine ⟨?_, ?_, by decide⟩
  · rw [extractBuildifierRes dir stdErr res h, buildifierResult_annsEq, buildifierScan_eq,
      List.all_eq_true]
    intro a ha
    rw [List.mem_map] at ha
    obtain ⟨x, _, rfl⟩ := ha
    rfl
  · rw [bazelResult_annotationsEq, bazelParse_anns_AS]
    exact bazelFoldAS_all_nonneg lines ([], []) rfl

/-- C7 amended witness: the theorem applied at concrete inputs. -/
theorem C7_amended_witness :
    c3res.Annotations.all lineIsOne = true
    ∧ (bazelResult ["pkg/BUILD:0:1: msg"]).Annotations.all lineNonneg = true
    ∧ annLines (bazelResult ["a:99999999999999999999:2: overflow"])
        = [(9223372036854775807 : Int)] :=
  C7_amended "/tmp/r" "/tmp/r/BUILD # comment" ["pkg/BUILD:0:1: msg"] c3res (by decide)

/-- C8: `runCmd` suppresses the process's own execution error exactly when
the process wrote a nonempty stderr; with an empty stderr the error is
passed through. -/
theorem C8_runCmd (out errStream : String) (e : Option String) :
    (errStream ≠ "" → (runCmd out errStream e).2.2 = none)
    ∧ (errStream = "" → (runCmd out errStream e).2.2 = e) := by
  constructor
  · intro h
    have hl : errStream.length > 0 := by
      cases errStream with
      | mk data =>
        cases data with
        | nil => exact absurd rfl h
        | cons c cs => simp [String.length]
    simp [runCmd, hl]
  · intro h
    subst h
    have hemp : ¬ (("" : String).length > 0) := by decide
    simp [runCmd, hemp]

/-- C8 witness: the theorem applied at concrete process outcomes. -/
theorem C8_runCmd_witness :
    (runCmd "out" "diag" (some "exit status 1")).2.2 = none
    ∧ (runCmd "out" "" (some "exit status 1")).2.2 = some "exit status 1" :=
  ⟨(C8_runCmd "out" "diag" (some "exit status 1")).1 (by decide),
   (C8_runCmd "out" "" (some "exit status 1")).2 rfl⟩

/-- C9 counterexample: a fully successful remediation flow clones its
working-copy directory but never removes it (the cleanup `defer` body is
commented out), contradicting the claim that both flows delete the
directory on exit. -/
theorem C9_counterexample :
    Effect.cloneRepo "/tmp/o/r/buildifier-fix"
        ∈ (TakeRequestedActionModel "/tmp/o/r/buildifier-fix" c9ActionEnv).1
    ∧ Effect.removeAll "/tmp/o/r/buildifier-fix"
        ∉ (TakeRequestedActionModel "/tmp/o/r/buildifier-fix" c9ActionEnv).1
    ∧ (TakeRequestedActionModel "/tmp/o/r/buildifier-fix" c9ActionEnv).2 = FlowExit.ok := by
  decide

/-- C9 (amended): once its clone has succeeded, the check-run execution
flow removes the provisioning directory on every exit (success, failure or
panic; removal failures are only logged); the remediation flow never
removes its directory. -/
theorem C9_amended (dir : String) (env : InitEnv) (aenv : ActionEnv)
    (h1 : env.update1Err = none) (h2 : env.cloneErr = none) :
    Effect.removeAll dir ∈ (InitCheckRunModel dir env).1
    ∧ Effect.removeAll dir ∉ (TakeRequestedActionModel dir aenv).1 := by
  constructor
  · unfold InitCheckRunModel
    simp only [h1, h2]
    cases hk : GetCheckFn env.checkName with
    | none => simp
    | some k =>
      cases hce : env.checkErr with
      | some e => simp
      | none =>
        cases hcr : env.checkRes with
        | none => simp
        | some r =>
          cases hu2 : env.update2Err with
          | some e => simp
          | none => simp
  · unfold TakeRequestedActionModel
    by_cases hid : aenv.identifier = buildifierFix
    · rw [if_pos hid]
      repeat' split
      all_goals simp
    · rw [if_neg hid]
      simp

/-- C9 amended witness: the theorem applied at concrete environments. -/
theorem C9_amended_witness :
    Effect.removeAll "/tmp/o/r/buildifier"
        ∈ (InitCheckRunModel "/tmp/o/r/buildifier" c9InitEnv).1
    ∧ Effect.removeAll "/tmp/o/r/buildifier"
        ∉ (TakeRequestedActionModel "/tmp/o/r/buildifier" c9ActionEnv).1 :=
  C9_amended "/tmp/o/r/buildifier" c9InitEnv c9ActionEnv rfl rfl

/-- C10: in the build-log parser the URL check runs before the noise
filter — a noise-prefixed line containing the streaming pattern still sets
the URL when none was captured yet, while contributing no annotation. -/
theorem C10_urlBeforeNoise (pre post : List String) (l : String) (u : List Char)
    (hnoise : isNoise (trimSpace l.data) = true)
    (hurl : findAfterLit (trimSpace l.data) = some u)
    (hu : u ≠ [])
    (hpre : (bazelParse pre).url = []) :
    (bazelResult (pre ++ l :: post)).URL = String.mk u
    ∧ (bazelResult (pre ++ l :: post)).Annotations
        = (bazelResult (pre ++ post)).Annotations := by
  constructor
  · rw [bazelResult_url, bazelParse_eq_fold, bazelFold_append, bazelFold_cons]
    have hstep : (bazelStep (bazelFold { url := [], seen := [], anns := [] } pre) l.data).url
        = u := by
      unfold bazelStep
      rw [show (bazelFold { url := [], seen := [], anns := [] } pre).url = [] from hpre]
      simp [hurl]
    rw [bazelFold_url_keep post _ (by rw [hstep]; exact hu), hstep]
  · rw [bazelResult_annotationsEq, bazelResult_annotationsEq, bazelParse_anns_AS,
      bazelParse_anns_AS, bazelFoldAS_append, bazelFoldAS_append, bazelFoldAS_cons,
      stepAS_noise _ l.data hnoise]

/-- C10 witness: the theorem applied at a concrete noise-prefixed URL
line. -/
theorem C10_urlBeforeNoise_witness :
    (bazelResult ([] ++ "ERROR: Streaming build results to: https://x" :: [])).URL
      = String.mk "https://x".data
    ∧ (bazelResult ([] ++ "ERROR: Streaming build results to: https://x" :: [])).Annotations
      = (bazelResult ([] ++ [])).Annotations :=
  C10_urlBeforeNoise [] [] "ERROR: Streaming build results to: https://x" "https://x".data
    (by decide) (by decide) (by decide) rfl

end ReviewBot
